import Mathlib

/-!
# Verification of the open-operator agent service

Shallow embedding of the agent-orchestration service:
* `src/app/api/session/route.ts` — region selection (`getClosestRegion`),
  session creation (`createSession`), termination (`endSession`), and the
  POST/DELETE handlers;
* `src/app/page.tsx` (API part) — `validateApiKey`, `runStagehand`, the
  streaming agent loop (`executeAgentWithStream`) and the `/api/agent`
  POST handler.

External effects (hosting-provider REST calls, the reasoning model, the
browser-automation driver) are modelled as oracle parameters: each outbound
call site consumes one oracle answer (`Except` for fallible calls), and the
requests the code issues are collected so that theorems can speak about
which remote calls were made and in what order.  Machine-level concerns do
not arise: all data involved is strings, booleans and small lists.
-/

namespace OpenOperator

/-! ## Data model: tools, steps, regions (src/app/page.tsx, route.ts) -/

/-- The closed tool enumeration of a planned `Step` (page.tsx line 171). -/
inductive Tool where
  | GOTO | ACT | EXTRACT | OBSERVE | CLOSE | WAIT | NAVBACK
  deriving DecidableEq, Repr

/-- `Step` record produced by the planner (page.tsx lines 168-173). -/
structure Step where
  text : String
  reasoning : String
  tool : Tool
  instr : String
  deriving DecidableEq, Repr

/-- The method enumeration accepted by `runStagehand` (page.tsx line 181):
the `Step` tools plus SCREENSHOT. -/
inductive Method where
  | GOTO | ACT | EXTRACT | CLOSE | SCREENSHOT | OBSERVE | WAIT | NAVBACK
  deriving DecidableEq, Repr

/-- The name of a method as it appears in source text, used to state
whether an error message mentions the tool. -/
def Method.name : Method → String
  | .GOTO => "GOTO"
  | .ACT => "ACT"
  | .EXTRACT => "EXTRACT"
  | .CLOSE => "CLOSE"
  | .SCREENSHOT => "SCREENSHOT"
  | .OBSERVE => "OBSERVE"
  | .WAIT => "WAIT"
  | .NAVBACK => "NAVBACK"

/-- `BrowserbaseRegion` (route.ts lines 6-10). -/
inductive Region where
  | usWest2 | usEast1 | euCentral1 | apSoutheast1
  deriving DecidableEq, Repr

/-! ## RegionSelector (route.ts lines 13-79) -/

/-- `exactTimezoneMap` (route.ts lines 13-20). -/
def exactTimezoneMap : List (String × Region) :=
  [("America/New_York", Region.usEast1),
   ("America/Detroit", Region.usEast1),
   ("America/Toronto", Region.usEast1),
   ("America/Montreal", Region.usEast1),
   ("America/Boston", Region.usEast1),
   ("America/Chicago", Region.usEast1)]

/-- `prefixToRegion` (route.ts lines 23-32). -/
def prefixToRegion : List (String × Region) :=
  [("America", Region.usWest2),
   ("US", Region.usWest2),
   ("Canada", Region.usWest2),
   ("Europe", Region.euCentral1),
   ("Africa", Region.euCentral1),
   ("Asia", Region.apSoutheast1),
   ("Australia", Region.apSoutheast1),
   ("Pacific", Region.apSoutheast1)]

/-- One entry of `offsetRanges`; bounds are rational hours since the
computed offset may be fractional. -/
structure OffsetRange where
  min : ℚ
  max : ℚ
  region : Region
  deriving DecidableEq, Repr

/-- `offsetRanges` (route.ts lines 35-43), inclusive bounds. -/
def offsetRanges : List OffsetRange :=
  [⟨-24, -4, Region.usWest2⟩,
   ⟨-3, 4, Region.euCentral1⟩,
   ⟨5, 24, Region.apSoutheast1⟩]

/-- Own-entry lookup in a string-keyed table: the JS `key in obj` test
followed by `obj[key]`, restricted to the table's own keys.  The full JS
`in` semantics also reports inherited `Object.prototype` keys as present;
that is modelled by `jsIn`/`jsLookup` below and used by
`getClosestRegionJs`.  The two models agree whenever the key is not an
`Object.prototype` member name. -/
def tableLookup (table : List (String × Region)) (key : String) : Option Region :=
  (table.find? (fun p => p.1 == key)).map (fun p => p.2)

/-- `timezone.split("/")[0]` (route.ts line 57): the text before the first
slash, or the whole string when there is none. -/
def tzPrefix (tz : String) : String :=
  String.mk (tz.toList.takeWhile (fun c => c != '/'))

/-- Whether some entry of `offsetRanges` contains the offset `h`
(the `find?` condition at route.ts lines 71-73). -/
def coversOffset (h : ℚ) : Bool :=
  offsetRanges.any (fun r => decide (r.min ≤ h) && decide (h ≤ r.max))

/-- `getClosestRegion` (route.ts lines 45-79) with table membership
modelled as own-entry lookup.  The locale-dependent UTC offset
computation (route.ts lines 63-69, `Intl.DateTimeFormat` plus date
arithmetic) is an oracle `offsetOf`: `none` models the formatter throwing
on an invalid timezone name, in which case the surrounding `try`/`catch`
returns the default region.  This own-key model agrees with the source
whenever neither the timezone nor its continent prefix names an
`Object.prototype` member (`getClosestRegionJs_agrees_off_protoKeys`
below); the facts stated about this function are used only in that
regime.  The full JS `in` semantics is `getClosestRegionJs`. -/
def getClosestRegion (offsetOf : String → Option ℚ) (timezone : Option String) :
    Region :=
  match timezone with
  | none => Region.usWest2
  | some tz =>
    match tableLookup exactTimezoneMap tz with
    | some r => r
    | none =>
      match tableLookup prefixToRegion (tzPrefix tz) with
      | some r => r
      | none =>
        match offsetOf tz with
        | none => Region.usWest2
        | some h =>
          match offsetRanges.find? (fun r => decide (r.min ≤ h) && decide (h ≤ r.max)) with
          | some r => r.region
          | none => Region.usWest2

/-- The own property keys of `Object.prototype`.  On a JS plain object
literal such as `exactTimezoneMap`, the `in` operator (route.ts lines 52
and 58) reports these as present even though they are not entries of the
table, and indexing the object with one of them yields the inherited
prototype member (a function, or for `__proto__` the prototype object),
not a table value. -/
def objectPrototypeKeys : List String :=
  ["constructor", "hasOwnProperty", "isPrototypeOf", "propertyIsEnumerable",
   "toLocaleString", "toString", "valueOf",
   "__defineGetter__", "__defineSetter__", "__lookupGetter__",
   "__lookupSetter__", "__proto__"]

/-- A value the source `getClosestRegion` can actually return under JS
semantics: a region, or a member inherited from `Object.prototype` when
the caller-controlled timezone (or its continent prefix) names one.  The
TypeScript index-signature types hide the second case. -/
inductive JsRegionValue where
  | region (r : Region)
  | protoMember (key : String)
  deriving DecidableEq, Repr

/-- The JS test `key in table` on a plain object literal: true for own
entries and for `Object.prototype` keys (route.ts lines 52 and 58). -/
def jsIn (table : List (String × Region)) (key : String) : Bool :=
  (table.find? (fun p => p.1 == key)).isSome || objectPrototypeKeys.contains key

/-- The JS member access `table[key]` for a key that `in` reports
present: the own entry when there is one, else the inherited prototype
member. -/
def jsLookup (table : List (String × Region)) (key : String) : JsRegionValue :=
  match table.find? (fun p => p.1 == key) with
  | some p => .region p.2
  | none => .protoMember key

/-- `getClosestRegion` (route.ts lines 45-79) under full JS member-lookup
semantics: identical to `getClosestRegion` above except that the two `in`
tests (route.ts lines 52 and 58) are modelled by `jsIn`, so a timezone or
continent prefix naming an `Object.prototype` member is reported present
and the inherited member is returned.  Nothing on that path throws, so
the surrounding `catch` does not intervene. -/
def getClosestRegionJs (offsetOf : String → Option ℚ)
    (timezone : Option String) : JsRegionValue :=
  match timezone with
  | none => .region Region.usWest2
  | some tz =>
    if jsIn exactTimezoneMap tz then jsLookup exactTimezoneMap tz
    else
      if jsIn prefixToRegion (tzPrefix tz) then
        jsLookup prefixToRegion (tzPrefix tz)
      else
        match offsetOf tz with
        | none => .region Region.usWest2
        | some h =>
          match offsetRanges.find?
              (fun r => decide (r.min ≤ h) && decide (h ≤ r.max)) with
          | some r => .region r.region
          | none => .region Region.usWest2

/-! ## ActionExecutor: `runStagehand` (page.tsx lines 175-256) -/

/-- Oracle for one `runStagehand` invocation: the outcome of
`stagehand.init()`, of the selected `switch` operation (a returned value
for EXTRACT/OBSERVE/SCREENSHOT, `none` for the void operations), and of the
`finally`-block `stagehand.close()`. -/
structure StagehandOracle where
  init : Except String Unit
  op : Except String (Option String)
  close : Except String Unit

/-- Observable outcome of `runStagehand`: the value returned or the error
propagated, and whether a close of the automation handle was attempted in
the `finally` block. -/
structure StagehandRun where
  result : Except String (Option String)
  closeAttempted : Bool
  deriving Repr

/-- The error-message wrapper of the outer catch
(page.tsx line 245): the message of the propagated error. -/
def stagehandWrap (cause : String) : String :=
  "Failed to execute Stagehand operation: " ++ cause

/-- `runStagehand` (page.tsx lines 175-256).  The Stagehand handle is
constructed, initialised, the method dispatched; the inner catch (line
239-242) logs the method name and rethrows the original error, the outer
catch (line 243-245) wraps it as
`Failed to execute Stagehand operation: <message>`, and the `finally`
(lines 246-255) always attempts `stagehand.close()`, swallowing any close
failure.  The method and instruction do not influence control flow beyond
selecting which operation the `op` oracle answers for, so they are
parameters recorded for the statements only. -/
def runStagehand (orc : StagehandOracle) (_method : Method)
    (_instr : Option String) : StagehandRun :=
  match orc.init with
  | .error e => { result := .error (stagehandWrap e), closeAttempted := true }
  | .ok _ =>
    match orc.op with
    | .error e => { result := .error (stagehandWrap e), closeAttempted := true }
    | .ok v => { result := .ok v, closeAttempted := true }

/-- Substring test used to state whether an error message carries a tool
name. -/
def strContains (s pat : String) : Bool :=
  (List.range (s.length + 1)).any (fun i => (s.drop i).take pat.length == pat)

/-! ## SessionManager (route.ts lines 81-201) -/

/-- One outbound request to the hosting-provider REST API, with the fields
the source puts in the request body. -/
inductive ProviderReq where
  | createContext (projectId : String)
  | createSession (projectId : String) (contextId : String)
      (persist : Bool) (keepAlive : Bool) (region : Region)
  | getDebug (sessionId : String)
  | release (sessionId : String) (projectId : String) (status : String)
  deriving DecidableEq, Repr

/-- Oracle for the provider calls `createSession` makes: the new context id,
the new session id, and the debugger-fullscreen URL; `.error` models a
non-ok response (whose text the source embeds in the thrown message). -/
structure ProviderOracle where
  contextCreate : Except String String
  sessionCreate : Except String String
  debugFetch : Except String String

/-- The record `createSession` resolves with (route.ts lines 165-169),
flattened to the fields the POST handler reads: `session.id`, the chosen
context id, and the debug URL. -/
structure SessionResult where
  sessionId : String
  ctxId : String
  debugUrl : String
  deriving DecidableEq, Repr

/-- `createSession` (route.ts lines 81-178).  Env-var presence for
`BROWSERBASE_API_KEY` / `BROWSERBASE_PROJECT_ID` is passed as
`bbKey`/`bbProject`; the function returns the ordered list of provider
requests it issued together with its result. -/
def createSession (bbKey bbProject : Option String)
    (offsetOf : String → Option ℚ) (orc : ProviderOracle)
    (timezone contextId : Option String) :
    List ProviderReq × Except String SessionResult :=
  match bbKey with
  | none => ([], .error "BROWSERBASE_API_KEY environment variable is not set")
  | some _ =>
    match bbProject with
    | none => ([], .error "BROWSERBASE_PROJECT_ID environment variable is not set")
    | some pid =>
      let afterContext : List ProviderReq → String →
          List ProviderReq × Except String SessionResult :=
        fun reqs ctxToUse =>
          let sessReq := ProviderReq.createSession pid ctxToUse true true
            (getClosestRegion offsetOf timezone)
          match orc.sessionCreate with
          | .error e =>
            (reqs ++ [sessReq], .error ("Failed to create session: " ++ e))
          | .ok sid =>
            match orc.debugFetch with
            | .error e =>
              (reqs ++ [sessReq, ProviderReq.getDebug sid],
               .error ("Failed to get debug URL: " ++ e))
            | .ok dbg =>
              (reqs ++ [sessReq, ProviderReq.getDebug sid],
               .ok ⟨sid, ctxToUse, dbg⟩)
      match contextId with
      | some c => afterContext [] c
      | none =>
        match orc.contextCreate with
        | .error e =>
          ([ProviderReq.createContext pid],
           .error ("Failed to create context: " ++ e))
        | .ok cid => afterContext [ProviderReq.createContext pid] cid

/-- `endSession` (route.ts lines 180-201): one PATCH requesting release;
a non-ok response is rethrown as an error. -/
def endSession (bbProject : Option String) (patchOutcome : Except String Unit)
    (sessionId : String) : List ProviderReq × Except String Unit :=
  let req := ProviderReq.release sessionId (bbProject.getD "") "REQUEST_RELEASE"
  match patchOutcome with
  | .error e => ([req], .error ("Failed to end session: " ++ e))
  | .ok _ => ([req], .ok ())

/-! ## Session route handlers (route.ts lines 203-270)

Neither handler reads any caller credential: the `xApiKey` parameter below
is the request's `x-api-key` header, which the source never consults. -/

/-- JSON body of POST /api/session. -/
structure SessionPostBody where
  timezone : Option String
  contextId : Option String
  deriving DecidableEq, Repr

/-- An HTTP JSON response of the session route, reduced to the fields the
spec speaks about. -/
structure SessionRouteResponse where
  status : Nat
  success : Bool
  sessionId : Option String
  sessionUrl : Option String
  ctxId : Option String
  deriving DecidableEq, Repr

/-- POST /api/session (route.ts lines 203-251).  `body = none` models a
request whose JSON fails to parse (outer catch, 500).  Note the handler
performs no `x-api-key` check. -/
def sessionPOST (_xApiKey : Option String) (bbKey bbProject : Option String)
    (offsetOf : String → Option ℚ) (orc : ProviderOracle)
    (body : Option SessionPostBody) :
    List ProviderReq × SessionRouteResponse :=
  match body with
  | none => ([], ⟨500, false, none, none, none⟩)
  | some b =>
    match createSession bbKey bbProject offsetOf orc b.timezone b.contextId with
    | (reqs, .error _) => (reqs, ⟨500, false, none, none, none⟩)
    | (reqs, .ok r) =>
      (reqs, ⟨200, true, some r.sessionId, some r.debugUrl, some r.ctxId⟩)

/-- DELETE /api/session (route.ts lines 253-270).  `body = none` models a
JSON parse failure.  No `x-api-key` check is performed. -/
def sessionDELETE (_xApiKey : Option String) (bbProject : Option String)
    (patchOutcome : Except String Unit) (body : Option String) :
    List ProviderReq × SessionRouteResponse :=
  match body with
  | none => ([], ⟨500, false, none, none, none⟩)
  | some sid =>
    match endSession bbProject patchOutcome sid with
    | (reqs, .error _) => (reqs, ⟨500, false, none, none, none⟩)
    | (reqs, .ok _) => (reqs, ⟨200, true, none, none, none⟩)

/-! ## API-key validation (page.tsx lines 123-166) -/

/-- `validateApiKey` (page.tsx lines 123-166): `none` means validation
passed; `some status` is the rejection response's status code.  The
server-side env var is checked first, so a misconfigured server answers
500 even to requests without the header. -/
def validateApiKey (envApiKey headerApiKey : Option String) : Option Nat :=
  match envApiKey with
  | none => some 500
  | some ek =>
    match headerApiKey with
    | none => some 401
    | some hk => if hk == ek then none else some 401

/-! ## AgentLoop and the streaming protocol (page.tsx lines 394-823) -/

/-- One newline-delimited stream event, with the payload fields the source
serialises (page.tsx `yield JSON.stringify(...)` / `controller.enqueue`). -/
inductive Event where
  | sessionStart (sessionId : String) (sessionUrl : String) (ctxId : String)
  | startingUrl (url : String) (reasoning : String)
  | stepComplete (result : Step) (done : Bool)
  | stepPlanned (result : Step) (done : Bool)
  | stepExecuted (extraction : Option String) (currentStep : Step)
      (url : Option String)
  | complete (steps : List Step) (finalResult : Step)
  | error (msg : String)
  deriving DecidableEq, Repr

/-- Oracle for the agent loop's outbound calls, indexed by iteration:
`plan n` is the `sendPrompt` result of iteration `n` (a `Step`, or the
message of a thrown `PlanningError`); `exec n` is the `runStagehand`
result for the step executed in iteration `n` (an optional
extraction/observation value, or the message of the propagated error). -/
structure RunOracle where
  plan : Nat → Except String Step
  exec : Nat → Except String (Option String)

/-- The `while (!done)` loop shared verbatim by both streaming paths
(page.tsx lines 494-535 and 668-709), followed by the `complete` emission.
`fuel` bounds the number of iterations modelled: running out of fuel
truncates the (potentially infinite) trace, which is sound for the safety
properties stated below.  `n` is the iteration index, `allSteps` the
accumulated history.  A thrown error reaches the surrounding catch, which
emits a single terminal `error` event. -/
def agentLoopIter (orc : RunOracle) : Nat → Nat → List Step → List Event
  | 0, _, _ => []
  | fuel + 1, n, allSteps =>
    match orc.plan n with
    | .error e => [Event.error e]
    | .ok result =>
      let newSteps := allSteps ++ [result]
      let done := result.tool == Tool.CLOSE
      Event.stepPlanned result done ::
        (if done then
          [Event.complete newSteps (newSteps.getLastD result)]
        else
          match orc.exec n with
          | .error e => [Event.error e]
          | .ok extraction =>
            Event.stepExecuted extraction result
                (if result.tool == Tool.GOTO then some result.instr else none) ::
              agentLoopIter orc fuel (n + 1) newSteps)

/-- `createBrowserbaseSession` (page.tsx lines 395-424): the fetch outcome
is an oracle delivering `data.id` and `data.debugUrl`; any failure is
rethrown as the fixed message. -/
def createBrowserbaseSession (fetchOutcome : Except String (String × Option String)) :
    Except String (String × Option String) :=
  match fetchOutcome with
  | .error _ => .error "Failed to create Browserbase session"
  | .ok v => .ok v

/-- Oracle bundle for one streaming agent run: the
`createBrowserbaseSession` fetch, the `selectStartingUrl` call
(url and reasoning), the first GOTO's `runStagehand` call, and the loop
oracle. -/
structure StreamOracle where
  createFetch : Except String (String × Option String)
  startUrl : Except String (String × String)
  execFirst : Except String Unit
  run : RunOracle

/-- The synthesized live-view URL (page.tsx line 467) used when no debug
URL came from session creation. -/
def synthSessionUrl (sid : String) : String :=
  "https://www.browserbase.com/devtools-fullscreen/inspector.html?wss=connect.euc1.browserbase.com/debug/"
    ++ sid ++ "/devtools/page/1?debug=true"

/-- `firstStep` (page.tsx lines 459-464 and 633-638). -/
def mkFirstStep (url reasoning : String) : Step :=
  { text := "Navigating to " ++ url, reasoning := reasoning,
    tool := Tool.GOTO, instr := url }

/-- Events of `executeAgentWithStream` once a session id is in hand
(page.tsx lines 457-535): `selectStartingUrl`, then the `session_start`
yield with `sessionUrl = debugUrl || synthesized` and
`contextId: activeSessionId`, the first GOTO, `step_complete`, and the
loop.  Any throw before the loop yields a single `error` event. -/
def streamBody (orc : StreamOracle) (sid : String) (dbg : Option String)
    (fuel : Nat) : List Event :=
  match orc.startUrl with
  | .error e => [Event.error e]
  | .ok (url, reasoning) =>
    let firstStep := mkFirstStep url reasoning
    let sessionUrl := dbg.getD (synthSessionUrl sid)
    Event.sessionStart sid sessionUrl sid ::
      (match orc.execFirst with
       | .error e => [Event.error e]
       | .ok _ =>
         Event.stepComplete firstStep false ::
           agentLoopIter orc.run fuel 0 [firstStep])

/-- Outcome of one streaming run: its event trace and the session ids
whose release (DELETE /api/session) was requested by its cleanup. -/
structure StreamRun where
  events : List Event
  releases : List String
  deriving DecidableEq, Repr

/-- `executeAgentWithStream` (page.tsx lines 427-561).  With a
caller-supplied `sessionId` the internal-ownership flag stays false and
the `finally` block releases nothing; with none, a session is created via
`createBrowserbaseSession` (failure is wrapped at line 448 and becomes the
sole event), and the `finally` block requests release of exactly that
session. -/
def executeAgentWithStream (orc : StreamOracle) (sessionId : Option String)
    (fuel : Nat) : StreamRun :=
  match sessionId with
  | some sid =>
    { events := streamBody orc sid none fuel, releases := [] }
  | none =>
    match createBrowserbaseSession orc.createFetch with
    | .error e =>
      { events := [Event.error ("Failed to create a Browserbase session: " ++ e)],
        releases := [] }
    | .ok (sid, dbg) =>
      { events := streamBody orc sid dbg fuel, releases := [sid] }

/-! ## POST /api/agent (page.tsx lines 563-823) -/

/-- JSON body of POST /api/agent. -/
structure AgentBody where
  goal : Option String
  sessionId : Option String
  deriving DecidableEq, Repr

/-- Body of the internal fetch to POST /api/session made by the agent
route (page.tsx lines 591-599). -/
structure SessionCreateBody where
  timezone : Option String
  contextId : Option String
  deriving DecidableEq, Repr

/-- Oracles of the agent POST handler: the internal POST /api/session
fetch (delivering sessionId, sessionUrl, contextId on success) plus the
streaming-run oracles. -/
structure AgentPostOracle where
  sessionFetch : Except String (String × String × String)
  stream : StreamOracle

/-- Observable outcome of POST /api/agent: HTTP status (200 for the
streaming responses), stream events, the body of the internal
session-creation call when one was made, and the session ids whose
release was requested. -/
structure AgentPostResult where
  status : Nat
  events : List Event
  sessionReq : Option SessionCreateBody
  releases : List String
  deriving DecidableEq, Repr

/-- Events of the internal-session streaming path (page.tsx lines
616-737): `session_start` is enqueued first with the created session's
data, then `starting_url`, the first GOTO, `step_complete`, and the loop;
the catch enqueues a terminal `error` event. -/
def internalStreamEvents (orc : StreamOracle) (sid surl cid : String)
    (fuel : Nat) : List Event :=
  Event.sessionStart sid surl cid ::
    (match orc.startUrl with
     | .error e => [Event.error e]
     | .ok (url, reasoning) =>
       let firstStep := mkFirstStep url reasoning
       Event.startingUrl url reasoning ::
         (match orc.execFirst with
          | .error e => [Event.error e]
          | .ok _ =>
            Event.stepComplete firstStep false ::
              agentLoopIter orc.run fuel 0 [firstStep]))

/-- POST /api/agent (page.tsx lines 563-823).  API-key validation runs
first; a body that fails to parse (`body = none`) hits the outer catch
(500); a missing goal answers 400.  With a caller-supplied `sessionId`
the handler streams `executeAgentWithStream`; otherwise it creates a
session through POST /api/session with the fixed body
`timezone = America/Los_Angeles` and no contextId, then streams the
inline loop, and its `finally` block requests release of the created
session. -/
def agentPOST (envApiKey headerApiKey : Option String)
    (body : Option AgentBody) (orc : AgentPostOracle) (fuel : Nat) :
    AgentPostResult :=
  match validateApiKey envApiKey headerApiKey with
  | some st => { status := st, events := [], sessionReq := none, releases := [] }
  | none =>
    match body with
    | none => { status := 500, events := [], sessionReq := none, releases := [] }
    | some b =>
      match b.goal with
      | none => { status := 400, events := [], sessionReq := none, releases := [] }
      | some _ =>
        match b.sessionId with
        | some sid =>
          let r := executeAgentWithStream orc.stream (some sid) fuel
          { status := 200, events := r.events, sessionReq := none,
            releases := r.releases }
        | none =>
          let req : SessionCreateBody :=
            { timezone := some "America/Los_Angeles", contextId := none }
          match orc.sessionFetch with
          | .error _ =>
            { status := 500, events := [], sessionReq := some req, releases := [] }
          | .ok (sid, surl, cid) =>
            { status := 200,
              events := internalStreamEvents orc.stream sid surl cid fuel,
              sessionReq := some req,
              releases := [sid] }

/-- The planned/executed history recorded in a trace: the steps carried by
`step_complete` and `step_planned` events, in order.  The loop invariant is
that its `allSteps` accumulator equals exactly this projection of the trace
so far. -/
def historyOf (tr : List Event) : List Step :=
  tr.filterMap (fun e =>
    match e with
    | Event.stepComplete s _ => some s
    | Event.stepPlanned s _ => some s
    | _ => none)

/-- Recogniser for `session_start` events. -/
def isSessionStart : Event → Bool
  | Event.sessionStart _ _ _ => true
  | _ => false

/-! ## Concrete oracle instances used to evaluate the model on closed runs -/

/-- A run oracle whose first planning call fails. -/
def idleRun : RunOracle :=
  { plan := fun _ => .error "no plan", exec := fun _ => .ok none }

/-- A stream oracle whose starting-URL selection fails (the reasoning-model
call throws before the `session_start` yield is reached). -/
def idleStream : StreamOracle :=
  { createFetch := .error "down", startUrl := .error "no url",
    execFirst := .ok (), run := idleRun }

/-- An agent-route oracle whose internal session-creation fetch fails. -/
def agentIdleOracle : AgentPostOracle :=
  { sessionFetch := .error "down", stream := idleStream }

/-- A provider oracle on which every hosting-provider call succeeds. -/
def providerOkOracle : ProviderOracle :=
  { contextCreate := .ok "ctx1", sessionCreate := .ok "sess1",
    debugFetch := .ok "https-debug-url" }

/-- A Stagehand oracle whose dispatched operation fails with message
boom after a successful init. -/
def stagehandBoomOracle : StagehandOracle :=
  { init := .ok (), op := .error "boom", close := .ok () }

/-- A CLOSE step, as the planner produces when the goal is judged
achieved. -/
def closeStep : Step :=
  { text := "done", reasoning := "goal met", tool := Tool.CLOSE, instr := "" }

/-- A run oracle that immediately plans CLOSE. -/
def closingRun : RunOracle :=
  { plan := fun _ => .ok closeStep, exec := fun _ => .ok none }

/-- A stream oracle on which every call succeeds and the first planned
step is CLOSE. -/
def okStream : StreamOracle :=
  { createFetch := .ok ("sess1", none),
    startUrl := .ok ("https-example", "because"),
    execFirst := .ok (), run := closingRun }

/-- An agent-route oracle on which every call succeeds. -/
def okAgentOracle : AgentPostOracle :=
  { sessionFetch := .ok ("sess1", "https-live", "ctx1"), stream := okStream }

/-! # Theorems -/

/-- Destructuring of a failed JS `in` test: the key is neither an own
entry nor an `Object.prototype` member. -/
theorem jsIn_eq_false_iff (table : List (String × Region)) (key : String) :
    jsIn table key = false ↔
      table.find? (fun p => p.1 == key) = none ∧
        key ∉ objectPrototypeKeys := by
  cases hf : table.find? (fun p => p.1 == key) with
  | some p => simp [jsIn, hf]
  | none => simp [jsIn, hf]

/-- C5 counterexample: the timezone toString is not an entry of the
exact-match table, yet the source returns the inherited
Object.prototype.toString member rather than the default region, because
the JS `in` test reports the key as present — refuting that on any
unknown input the default region is returned. -/
theorem c5_counterexample :
    tableLookup exactTimezoneMap "toString" = none ∧
    getClosestRegionJs (fun _ => none) (some "toString") =
      JsRegionValue.protoMember "toString" ∧
    getClosestRegionJs (fun _ => none) (some "toString") ≠
      JsRegionValue.region Region.usWest2 :=
  ⟨by decide, by decide, by decide⟩

/-- C5 amended: getClosestRegion never throws, and behaves as claimed on
inputs that do not name Object.prototype members: for no timezone it
returns the default region us-west-2; for every own entry of the
exact-match table it returns that table's mapped region, with exact match
taking priority over prefix match; for every timezone whose exact-table
`in` test fails and whose text before the first slash is an own entry of
the continent-prefix table it returns that prefix's region; and an
offset-computation error or an offset in no range yields the default
region.  However, the `in` tests also accept inherited Object.prototype
member names (toString, constructor, valueOf, ...): a timezone, or a
continent prefix, equal to such a name makes the function return the
inherited prototype member rather than any region, so the function is
not total over regions and the default-on-any-unknown-input clause
fails for those inputs. -/
theorem c5_getClosestRegionJs_spec (offsetOf : String → Option ℚ) :
    getClosestRegionJs offsetOf none = JsRegionValue.region Region.usWest2 ∧
    (∀ tz r, tableLookup exactTimezoneMap tz = some r →
      getClosestRegionJs offsetOf (some tz) = JsRegionValue.region r) ∧
    (∀ tz r, jsIn exactTimezoneMap tz = false →
      tableLookup prefixToRegion (tzPrefix tz) = some r →
      getClosestRegionJs offsetOf (some tz) = JsRegionValue.region r) ∧
    (∀ tz, jsIn exactTimezoneMap tz = false →
      jsIn prefixToRegion (tzPrefix tz) = false →
      offsetOf tz = none →
      getClosestRegionJs offsetOf (some tz) =
        JsRegionValue.region Region.usWest2) ∧
    (∀ tz h, jsIn exactTimezoneMap tz = false →
      jsIn prefixToRegion (tzPrefix tz) = false →
      offsetOf tz = some h → coversOffset h = false →
      getClosestRegionJs offsetOf (some tz) =
        JsRegionValue.region Region.usWest2) ∧
    (∀ tz, tableLookup exactTimezoneMap tz = none →
      objectPrototypeKeys.contains tz = true →
      getClosestRegionJs offsetOf (some tz) =
        JsRegionValue.protoMember tz) ∧
    (∀ tz, jsIn exactTimezoneMap tz = false →
      tableLookup prefixToRegion (tzPrefix tz) = none →
      objectPrototypeKeys.contains (tzPrefix tz) = true →
      getClosestRegionJs offsetOf (some tz) =
        JsRegionValue.protoMember (tzPrefix tz)) := by
  refine ⟨rfl, ?_, ?_, ?_, ?_, ?_, ?_⟩
  · intro tz r h
    cases hf : exactTimezoneMap.find? (fun p => p.1 == tz) with
    | none => simp [tableLookup, hf] at h
    | some p =>
      simp [tableLookup, hf] at h
      simp [getClosestRegionJs, jsIn, jsLookup, hf, h]
  · intro tz r h1 h2
    obtain ⟨h1a, h1m⟩ := (jsIn_eq_false_iff exactTimezoneMap tz).mp h1
    cases hf : prefixToRegion.find? (fun p => p.1 == tzPrefix tz) with
    | none => simp [tableLookup, hf] at h2
    | some p =>
      simp [tableLookup, hf] at h2
      simp [getClosestRegionJs, jsIn, jsLookup, h1a, h1m, hf, h2]
  · intro tz h1 h2 h3
    obtain ⟨h1a, h1m⟩ := (jsIn_eq_false_iff exactTimezoneMap tz).mp h1
    obtain ⟨h2a, h2m⟩ := (jsIn_eq_false_iff prefixToRegion (tzPrefix tz)).mp h2
    simp [getClosestRegionJs, jsIn, h1a, h1m, h2a, h2m, h3]
  · intro tz h h1 h2 h3 h4
    obtain ⟨h1a, h1m⟩ := (jsIn_eq_false_iff exactTimezoneMap tz).mp h1
    obtain ⟨h2a, h2m⟩ := (jsIn_eq_false_iff prefixToRegion (tzPrefix tz)).mp h2
    have hf : offsetRanges.find?
        (fun r => decide (r.min ≤ h) && decide (h ≤ r.max)) = none := by
      rw [List.find?_eq_none]
      intro x hx
      simpa using List.any_eq_false.mp h4 x hx
    simp [getClosestRegionJs, jsIn, h1a, h1m, h2a, h2m, h3, hf]
  · intro tz h1 h2
    have h2m : tz ∈ objectPrototypeKeys := by simpa using h2
    cases hf : exactTimezoneMap.find? (fun p => p.1 == tz) with
    | some p => simp [tableLookup, hf] at h1
    | none => simp [getClosestRegionJs, jsIn, jsLookup, hf, h2m]
  · intro tz h1 h2 h3
    obtain ⟨h1a, h1m⟩ := (jsIn_eq_false_iff exactTimezoneMap tz).mp h1
    have h3m : tzPrefix tz ∈ objectPrototypeKeys := by simpa using h3
    cases hf : prefixToRegion.find? (fun p => p.1 == tzPrefix tz) with
    | some p => simp [tableLookup, hf] at h2
    | none => simp [getClosestRegionJs, jsIn, jsLookup, h1a, h1m, hf, h3m]

/-- C5 witness: the own exact-table entry America/New_York still maps to
us-east-1 under the full JS semantics, even with an offset oracle that
always fails. -/
theorem c5_witness :
    tableLookup exactTimezoneMap "America/New_York" = some Region.usEast1 ∧
    getClosestRegionJs (fun _ => none) (some "America/New_York") =
      JsRegionValue.region Region.usEast1 :=
  ⟨by decide,
   (c5_getClosestRegionJs_spec (fun _ => none)).2.1 "America/New_York"
     Region.usEast1 (by decide)⟩

/-- On every input whose timezone and continent prefix are not
Object.prototype member names, the full JS model agrees with the own-key
model used for the offset-range facts: the regime in which the theorems
about getClosestRegion are read. -/
theorem getClosestRegionJs_agrees_off_protoKeys
    (offsetOf : String → Option ℚ) (tz : String)
    (h1 : objectPrototypeKeys.contains tz = false)
    (h2 : objectPrototypeKeys.contains (tzPrefix tz) = false) :
    getClosestRegionJs offsetOf (some tz) =
      JsRegionValue.region (getClosestRegion offsetOf (some tz)) := by
  have h1m : tz ∉ objectPrototypeKeys := by simpa using h1
  have h2m : tzPrefix tz ∉ objectPrototypeKeys := by simpa using h2
  cases hf : exactTimezoneMap.find? (fun p => p.1 == tz) with
  | some p =>
    simp [getClosestRegionJs, getClosestRegion, tableLookup, jsIn, jsLookup, hf]
  | none =>
    cases hg : prefixToRegion.find? (fun p => p.1 == tzPrefix tz) with
    | some p =>
      simp [getClosestRegionJs, getClosestRegion, tableLookup, jsIn, jsLookup,
        hf, hg, h1m]
    | none =>
      cases ho : offsetOf tz with
      | none =>
        simp [getClosestRegionJs, getClosestRegion, tableLookup, jsIn, jsLookup,
          hf, hg, h1m, h2m, ho]
      | some h =>
        cases hr : offsetRanges.find?
            (fun r => decide (r.min ≤ h) && decide (h ≤ r.max)) with
        | some r =>
          simp [getClosestRegionJs, getClosestRegion, tableLookup, jsIn,
            jsLookup, hf, hg, h1m, h2m, ho, hr]
        | none =>
          simp [getClosestRegionJs, getClosestRegion, tableLookup, jsIn,
            jsLookup, hf, hg, h1m, h2m, ho, hr]

/-- C6 counterexample: the fractional offset +4.5 lies within the ±24-hour
span but in no entry of offsetRanges, so the default-region fallback after
the range lookup is reached (shown for a timezone hitting the offset
path). -/
theorem c6_counterexample :
    ((-24 : ℚ) ≤ 9 / 2 ∧ (9 / 2 : ℚ) ≤ 24) ∧
    coversOffset (9 / 2) = false ∧
    getClosestRegion (fun _ => some (9 / 2)) (some "Etc/GMT") = Region.usWest2 := by
  refine ⟨⟨by norm_num, by norm_num⟩, by norm_num [coversOffset, offsetRanges], ?_⟩
  have h1 : tableLookup exactTimezoneMap "Etc/GMT" = none := by decide
  have h2 : tableLookup prefixToRegion (tzPrefix "Etc/GMT") = none := by decide
  have hcov : coversOffset (9 / 2) = false := by norm_num [coversOffset, offsetRanges]
  have h3 : offsetRanges.find?
      (fun r => decide (r.min ≤ (9 : ℚ) / 2) && decide ((9 : ℚ) / 2 ≤ r.max)) = none := by
    rw [List.find?_eq_none]
    intro x hx
    simpa using List.any_eq_false.mp hcov x hx
  simp only [getClosestRegion, h1, h2, h3]

/-- C6 amended: the three offset ranges are pairwise disjoint and cover
every integer offset in [-24, 24], but they do not cover the full
rational ±24-hour span: the fractional offsets strictly between -4 and -3
and between 4 and 5 (for example +4.5) lie in no range, so the
default-region fallback after the range lookup is reachable. -/
theorem c6_offsetRanges_integer_cover :
    (∀ h : ℚ, ∀ r1 ∈ offsetRanges, ∀ r2 ∈ offsetRanges,
      r1.min ≤ h → h ≤ r1.max → r2.min ≤ h → h ≤ r2.max → r1 = r2) ∧
    (∀ n : ℤ, -24 ≤ n → n ≤ 24 → coversOffset (n : ℚ) = true) ∧
    coversOffset (9 / 2 : ℚ) = false := by
  refine ⟨?_, ?_, by norm_num [coversOffset, offsetRanges]⟩
  · intro h r1 hr1 r2 hr2 a1 a2 b1 b2
    simp only [offsetRanges, List.mem_cons, List.not_mem_nil, or_false] at hr1 hr2
    rcases hr1 with rfl | rfl | rfl <;> rcases hr2 with rfl | rfl | rfl <;>
      first
        | rfl
        | (exfalso; simp only at a1 a2 b1 b2; linarith)
  · intro n hlo hhi
    simp only [coversOffset, offsetRanges, List.any_cons, List.any_nil,
      Bool.or_false, Bool.or_eq_true, Bool.and_eq_true, decide_eq_true_eq]
    rcases (show n ≤ -4 ∨ (-3 ≤ n ∧ n ≤ 4) ∨ 5 ≤ n from by omega) with
        h | ⟨h1, h2⟩ | h
    · exact Or.inl ⟨by exact_mod_cast hlo, by exact_mod_cast h⟩
    · exact Or.inr (Or.inl ⟨by exact_mod_cast h1, by exact_mod_cast h2⟩)
    · exact Or.inr (Or.inr ⟨by exact_mod_cast h, by exact_mod_cast hhi⟩)

/-- C6 witness: the integer offset 0 is covered by the ranges. -/
theorem c6_witness : coversOffset ((0 : ℤ) : ℚ) = true :=
  c6_offsetRanges_integer_cover.2.1 0 (by decide) (by decide)

/-- C7: with a caller-supplied contextId no context-creation request is
ever issued and the returned contextId is the supplied one; with none, a
context is created first and its id returned; in both cases the session
request carries the chosen context with persist and keepAlive set and the
region computed from the timezone, and the debug URL is then fetched for
the created session. -/
theorem c7_createSession_contract (bk pid : String)
    (offsetOf : String → Option ℚ) (orc : ProviderOracle) (tz : Option String) :
    (∀ c, ProviderReq.createContext pid ∉
      (createSession (some bk) (some pid) offsetOf orc tz (some c)).1) ∧
    (∀ c sid dbg, orc.sessionCreate = .ok sid → orc.debugFetch = .ok dbg →
      createSession (some bk) (some pid) offsetOf orc tz (some c) =
        ([ProviderReq.createSession pid c true true (getClosestRegion offsetOf tz),
          ProviderReq.getDebug sid],
         .ok ⟨sid, c, dbg⟩)) ∧
    (∀ cid sid dbg, orc.contextCreate = .ok cid → orc.sessionCreate = .ok sid →
      orc.debugFetch = .ok dbg →
      createSession (some bk) (some pid) offsetOf orc tz none =
        ([ProviderReq.createContext pid,
          ProviderReq.createSession pid cid true true (getClosestRegion offsetOf tz),
          ProviderReq.getDebug sid],
         .ok ⟨sid, cid, dbg⟩)) := by
  refine ⟨?_, ?_, ?_⟩
  · intro c
    cases hs : orc.sessionCreate with
    | error e => simp [createSession, hs]
    | ok sid =>
      cases hd : orc.debugFetch with
      | error e => simp [createSession, hs, hd]
      | ok dbg => simp [createSession, hs, hd]
  · intro c sid dbg hs hd
    simp [createSession, hs, hd]
  · intro cid sid dbg hc hs hd
    simp [createSession, hc, hs, hd]

/-- C7 witness: a concrete all-succeeding provider oracle, run without a
supplied contextId. -/
theorem c7_witness :
    createSession (some "bk") (some "proj") (fun _ => none) providerOkOracle
        none none =
      ([ProviderReq.createContext "proj",
        ProviderReq.createSession "proj" "ctx1" true true Region.usWest2,
        ProviderReq.getDebug "sess1"],
       .ok ⟨"sess1", "ctx1", "https-debug-url"⟩) :=
  (c7_createSession_contract "bk" "proj" (fun _ => none) providerOkOracle
    none).2.2 "ctx1" "sess1" "https-debug-url" rfl rfl rfl

/-- C8 counterexample: when the automation operation fails, the propagated
error message carries the underlying cause but not the tool name (here
ACT), refuting the both-tool-name-and-cause part of the claim; the handle
release is still attempted. -/
theorem c8_counterexample :
    (runStagehand stagehandBoomOracle Method.ACT (some "click")).result =
      .error "Failed to execute Stagehand operation: boom" ∧
    strContains "Failed to execute Stagehand operation: boom" Method.ACT.name
      = false ∧
    (runStagehand stagehandBoomOracle Method.ACT (some "click")).closeAttempted
      = true :=
  ⟨rfl, by decide, rfl⟩

/-- C8 amended: whenever the underlying automation capability fails during
a tool execution, the failure is wrapped and re-raised as an error whose
message carries the underlying cause (but not the tool name, which is only
logged); the automation handle is still released before the error
propagates. -/
theorem c8_runStagehand_wraps_and_releases (orc : StagehandOracle)
    (m : Method) (ins : Option String) (e : String)
    (hi : orc.init = .ok ()) (ho : orc.op = .error e) :
    (runStagehand orc m ins).result = .error (stagehandWrap e) ∧
    (runStagehand orc m ins).closeAttempted = true := by
  simp [runStagehand, hi, ho]

/-- C8 witness: the amended wrapping property at the concrete failing
oracle. -/
theorem c8_witness :
    (runStagehand stagehandBoomOracle Method.EXTRACT none).result =
      .error (stagehandWrap "boom") ∧
    (runStagehand stagehandBoomOracle Method.EXTRACT none).closeAttempted
      = true :=
  c8_runStagehand_wraps_and_releases stagehandBoomOracle Method.EXTRACT none
    "boom" rfl rfl

/-- Every step_planned event the loop emits has its done flag equal to
the test the source computes: the planned tool being CLOSE. -/
theorem loop_planned_done (orc : RunOracle) (fuel : Nat) :
    ∀ (n : Nat) (steps : List Step) (s : Step) (d : Bool),
      Event.stepPlanned s d ∈ agentLoopIter orc fuel n steps →
      d = (s.tool == Tool.CLOSE) := by
  induction fuel with
  | zero => intro n steps s d h; simp [agentLoopIter] at h
  | succ fuel ih =>
    intro n steps s d h
    rw [agentLoopIter] at h
    cases hp : orc.plan n with
    | error e =>
      rw [hp] at h
      simp at h
    | ok result =>
      rw [hp] at h
      by_cases hd : result.tool = Tool.CLOSE
      · simp only [hd] at h
        rcases List.mem_cons.mp h with heq | hmem
        · cases heq
          rw [hd]
        · simp at hmem
      · have hb : (result.tool == Tool.CLOSE) = false := by simpa using hd
        simp only [hb] at h
        rcases List.mem_cons.mp h with heq | hmem
        · cases heq
          exact hb.symm
        · cases he : orc.exec n with
          | error e =>
            rw [he] at hmem
            simp at hmem
          | ok extraction =>
            rw [he] at hmem
            rcases List.mem_cons.mp hmem with heq2 | hmem2
            · exact absurd heq2 (by simp)
            · exact ih _ _ _ _ hmem2

/-- The loop body never emits a session_start event. -/
theorem loop_sessionStart_false (orc : RunOracle) (fuel : Nat) :
    ∀ (n : Nat) (steps : List Step) (a : Event),
      a ∈ agentLoopIter orc fuel n steps → isSessionStart a = false := by
  induction fuel with
  | zero => intro n steps a h; simp [agentLoopIter] at h
  | succ fuel ih =>
    intro n steps a h
    rw [agentLoopIter] at h
    cases hp : orc.plan n with
    | error e =>
      rw [hp] at h
      simp at h
      subst h
      rfl
    | ok result =>
      rw [hp] at h
      rcases List.mem_cons.mp h with heq | hmem
      · subst heq
        rfl
      · by_cases hd : result.tool = Tool.CLOSE
        · simp only [hd, beq_self_eq_true, reduceIte] at hmem
          simp at hmem
          subst hmem
          rfl
        · have hb : (result.tool == Tool.CLOSE) = false := by simpa using hd
          simp only [hb, Bool.false_eq_true, reduceIte] at hmem
          cases he : orc.exec n with
          | error e =>
            rw [he] at hmem
            simp at hmem
            subst hmem
            rfl
          | ok ext =>
            rw [he] at hmem
            rcases List.mem_cons.mp hmem with heq2 | hmem2
            · subst heq2
              rfl
            · exact ih _ _ _ hmem2

/-- Membership form of the previous lemma. -/
theorem loop_sessionStart_not_mem (orc : RunOracle) (fuel n : Nat)
    (steps : List Step) (s u c : String) :
    Event.sessionStart s u c ∉ agentLoopIter orc fuel n steps := by
  intro hmem
  have h0 := loop_sessionStart_false orc fuel n steps _ hmem
  simp [isSessionStart] at h0

/-- Loop invariant: if the loop trace contains a step_planned event with
done = true, everything after it is exactly one complete event whose
steps field is the accumulator at loop entry extended by the planned
steps the trace records, and whose finalResult is the CLOSE step. -/
theorem loop_after_close (orc : RunOracle) (fuel : Nat) :
    ∀ (n : Nat) (steps : List Step) (pre : List Event) (s : Step)
      (post : List Event),
      agentLoopIter orc fuel n steps = pre ++ Event.stepPlanned s true :: post →
      post = [Event.complete (steps ++ historyOf pre ++ [s]) s] := by
  induction fuel with
  | zero =>
    intro n steps pre s post h
    rw [agentLoopIter] at h
    exact absurd h.symm (by simp)
  | succ fuel ih =>
    intro n steps pre s post h
    rw [agentLoopIter] at h
    cases hp : orc.plan n with
    | error e =>
      rw [hp] at h
      rcases pre with _ | ⟨a, pre⟩ <;> simp at h
    | ok result =>
      rw [hp] at h
      by_cases hd : result.tool = Tool.CLOSE
      · simp only [hd, beq_self_eq_true, if_true, reduceIte] at h
        rcases pre with _ | ⟨a, pre⟩
        · simp only [List.nil_append, List.cons.injEq] at h
          obtain ⟨h1, h2⟩ := h
          cases h1
          simp [h2.symm, historyOf, List.getLastD_concat]
        · simp only [List.cons_append, List.cons.injEq] at h
          obtain ⟨h1, h2⟩ := h
          rcases pre with _ | ⟨b, pre⟩ <;> simp at h2
      · have hb : (result.tool == Tool.CLOSE) = false := by simpa using hd
        simp only [hb, Bool.false_eq_true, if_false, reduceIte] at h
        cases he : orc.exec n with
        | error e =>
          rw [he] at h
          rcases pre with _ | ⟨a, pre⟩
          · simp at h
          · simp only [List.cons_append, List.cons.injEq] at h
            obtain ⟨h1, h2⟩ := h
            rcases pre with _ | ⟨b, pre⟩ <;> simp at h2
        | ok extraction =>
          rw [he] at h
          rcases pre with _ | ⟨a, pre⟩
          · simp at h
          · simp only [List.cons_append, List.cons.injEq] at h
            obtain ⟨h1, h2⟩ := h
            rcases pre with _ | ⟨b, pre⟩
            · simp at h2
            · simp only [List.cons_append, List.cons.injEq] at h2
              obtain ⟨h3, h4⟩ := h2
              have := ih _ _ _ _ _ h4
              subst h1 h3
              simp only [this, historyOf, List.filterMap_cons]
              simp [List.append_assoc]

-- streamBody level
/-- Lift of the done-flag lemma to the executeAgentWithStream body. -/
theorem streamBody_planned_done (orc : StreamOracle) (sid : String)
    (dbg : Option String) (fuel : Nat) (s : Step) (d : Bool)
    (h : Event.stepPlanned s d ∈ streamBody orc sid dbg fuel) :
    d = (s.tool == Tool.CLOSE) := by
  rw [streamBody] at h
  cases hsu : orc.startUrl with
  | error e =>
    rw [hsu] at h
    simp at h
  | ok ur =>
    rw [hsu] at h
    cases hef : orc.execFirst with
    | error e =>
      rw [hef] at h
      simp at h
    | ok u =>
      rw [hef] at h
      simp only [List.mem_cons] at h
      rcases h with h | h | h
      · exact absurd h (by simp)
      · exact absurd h (by simp)
      · exact loop_planned_done orc.run fuel 0 _ s d h

/-- Lift of the after-CLOSE lemma to the executeAgentWithStream body:
the accumulator starts as the first GOTO step, which the trace records
as its step_complete event. -/
theorem streamBody_after_close (orc : StreamOracle) (sid : String)
    (dbg : Option String) (fuel : Nat) (pre : List Event) (s : Step)
    (post : List Event)
    (h : streamBody orc sid dbg fuel = pre ++ Event.stepPlanned s true :: post) :
    post = [Event.complete (historyOf pre ++ [s]) s] := by
  rw [streamBody] at h
  cases hsu : orc.startUrl with
  | error e =>
    rw [hsu] at h
    rcases pre with _ | ⟨a, pre⟩ <;> simp at h
  | ok ur =>
    rw [hsu] at h
    cases hef : orc.execFirst with
    | error e =>
      rw [hef] at h
      rcases pre with _ | ⟨a, pre⟩
      · simp at h
      · simp only [List.cons_append, List.cons.injEq] at h
        obtain ⟨h1, h2⟩ := h
        rcases pre with _ | ⟨b, pre⟩ <;> simp at h2
    | ok u =>
      rw [hef] at h
      rcases pre with _ | ⟨a, pre⟩
      · simp at h
      · simp only [List.cons_append, List.cons.injEq] at h
        obtain ⟨h1, h2⟩ := h
        rcases pre with _ | ⟨b, pre⟩
        · simp at h2
        · simp only [List.cons_append, List.cons.injEq] at h2
          obtain ⟨h3, h4⟩ := h2
          have hpost := loop_after_close orc.run fuel 0 _ pre s post h4
          subst h1 h3
          simp only [hpost, historyOf, List.filterMap_cons]
          simp

/-- Lift of the done-flag lemma to the internal-creation POST path. -/
theorem internal_planned_done (orc : StreamOracle) (sid surl cid : String)
    (fuel : Nat) (s : Step) (d : Bool)
    (h : Event.stepPlanned s d ∈ internalStreamEvents orc sid surl cid fuel) :
    d = (s.tool == Tool.CLOSE) := by
  rw [internalStreamEvents] at h
  rcases List.mem_cons.mp h with heq | h
  · exact absurd heq (by simp)
  · cases hsu : orc.startUrl with
    | error e =>
      rw [hsu] at h
      simp at h
    | ok ur =>
      rw [hsu] at h
      cases hef : orc.execFirst with
      | error e =>
        rw [hef] at h
        simp at h
      | ok u =>
        rw [hef] at h
        simp only [List.mem_cons] at h
        rcases h with h | h | h
        · exact absurd h (by simp)
        · exact absurd h (by simp)
        · exact loop_planned_done orc.run fuel 0 _ s d h

/-- Lift of the after-CLOSE lemma to the internal-creation POST path. -/
theorem internal_after_close (orc : StreamOracle) (sid surl cid : String)
    (fuel : Nat) (pre : List Event) (s : Step) (post : List Event)
    (h : internalStreamEvents orc sid surl cid fuel =
      pre ++ Event.stepPlanned s true :: post) :
    post = [Event.complete (historyOf pre ++ [s]) s] := by
  rw [internalStreamEvents] at h
  rcases pre with _ | ⟨a0, pre⟩
  · simp at h
  · simp only [List.cons_append, List.cons.injEq] at h
    obtain ⟨h0, h⟩ := h
    cases hsu : orc.startUrl with
    | error e =>
      rw [hsu] at h
      rcases pre with _ | ⟨a, pre⟩ <;> simp at h
    | ok ur =>
      rw [hsu] at h
      cases hef : orc.execFirst with
      | error e =>
        rw [hef] at h
        rcases pre with _ | ⟨a, pre⟩
        · simp at h
        · simp only [List.cons_append, List.cons.injEq] at h
          obtain ⟨h1, h2⟩ := h
          rcases pre with _ | ⟨b, pre⟩ <;> simp at h2
      | ok u =>
        rw [hef] at h
        rcases pre with _ | ⟨a, pre⟩
        · simp at h
        · simp only [List.cons_append, List.cons.injEq] at h
          obtain ⟨h1, h2⟩ := h
          rcases pre with _ | ⟨b, pre⟩
          · simp at h2
          · simp only [List.cons_append, List.cons.injEq] at h2
            obtain ⟨h3, h4⟩ := h2
            have hpost := loop_after_close orc.run fuel 0 _ pre s post h4
            subst h0 h1 h3
            simp only [hpost, historyOf, List.filterMap_cons]
            simp

/-- Done-flag lemma for full executeAgentWithStream runs. -/
theorem exec_stream_planned_done (orc : StreamOracle) (sid? : Option String)
    (fuel : Nat) (s : Step) (d : Bool)
    (h : Event.stepPlanned s d ∈ (executeAgentWithStream orc sid? fuel).events) :
    d = (s.tool == Tool.CLOSE) := by
  cases sid? with
  | some sid => exact streamBody_planned_done orc sid none fuel s d h
  | none =>
    cases hc : orc.createFetch with
    | error e =>
      simp only [executeAgentWithStream, createBrowserbaseSession, hc] at h
      simp at h
    | ok v =>
      obtain ⟨sid, dbg⟩ := v
      simp only [executeAgentWithStream, createBrowserbaseSession, hc] at h
      exact streamBody_planned_done orc sid dbg fuel s d h

/-- After-CLOSE lemma for full executeAgentWithStream runs. -/
theorem exec_stream_after_close (orc : StreamOracle) (sid? : Option String)
    (fuel : Nat) (pre : List Event) (s : Step) (post : List Event)
    (h : (executeAgentWithStream orc sid? fuel).events =
      pre ++ Event.stepPlanned s true :: post) :
    post = [Event.complete (historyOf pre ++ [s]) s] := by
  cases sid? with
  | some sid => exact streamBody_after_close orc sid none fuel pre s post h
  | none =>
    cases hc : orc.createFetch with
    | error e =>
      simp only [executeAgentWithStream, createBrowserbaseSession, hc] at h
      rcases pre with _ | ⟨a, pre⟩ <;> simp at h
    | ok v =>
      obtain ⟨sid, dbg⟩ := v
      simp only [executeAgentWithStream, createBrowserbaseSession, hc] at h
      exact streamBody_after_close orc sid dbg fuel pre s post h

/-- Done-flag lemma for full POST /api/agent handling, both paths. -/
theorem agent_post_planned_done (ek hk : Option String)
    (body : Option AgentBody) (orc : AgentPostOracle) (fuel : Nat)
    (s : Step) (d : Bool)
    (h : Event.stepPlanned s d ∈ (agentPOST ek hk body orc fuel).events) :
    d = (s.tool == Tool.CLOSE) := by
  cases hv : validateApiKey ek hk with
  | some st =>
    simp only [agentPOST, hv] at h
    simp at h
  | none =>
    cases body with
    | none =>
      simp only [agentPOST, hv] at h
      simp at h
    | some b =>
      cases hg : b.goal with
      | none =>
        simp only [agentPOST, hv, hg] at h
        simp at h
      | some g =>
        cases hs : b.sessionId with
        | some sid =>
          simp only [agentPOST, hv, hg, hs] at h
          exact exec_stream_planned_done orc.stream (some sid) fuel s d h
        | none =>
          cases hf : orc.sessionFetch with
          | error e =>
            simp only [agentPOST, hv, hg, hs, hf] at h
            simp at h
          | ok v =>
            obtain ⟨sid, surl, cid⟩ := v
            simp only [agentPOST, hv, hg, hs, hf] at h
            exact internal_planned_done orc.stream sid surl cid fuel s d h

/-- After-CLOSE lemma for full POST /api/agent handling, both paths. -/
theorem agent_post_after_close (ek hk : Option String)
    (body : Option AgentBody) (orc : AgentPostOracle) (fuel : Nat)
    (pre : List Event) (s : Step) (post : List Event)
    (h : (agentPOST ek hk body orc fuel).events =
      pre ++ Event.stepPlanned s true :: post) :
    post = [Event.complete (historyOf pre ++ [s]) s] := by
  cases hv : validateApiKey ek hk with
  | some st =>
    simp only [agentPOST, hv] at h
    simp at h
  | none =>
    cases body with
    | none =>
      simp only [agentPOST, hv] at h
      simp at h
    | some b =>
      cases hg : b.goal with
      | none =>
        simp only [agentPOST, hv, hg] at h
        simp at h
      | some g =>
        cases hs : b.sessionId with
        | some sid =>
          simp only [agentPOST, hv, hg, hs] at h
          exact exec_stream_after_close orc.stream (some sid) fuel pre s post h
        | none =>
          cases hf : orc.sessionFetch with
          | error e =>
            simp only [agentPOST, hv, hg, hs, hf] at h
            simp at h
          | ok v =>
            obtain ⟨sid, surl, cid⟩ := v
            simp only [agentPOST, hv, hg, hs, hf] at h
            exact internal_after_close orc.stream sid surl cid fuel pre s post h


/-- After its first event, the executeAgentWithStream body emits no
session_start. -/
theorem streamBody_tail_no_ss (orc : StreamOracle) (sid : String)
    (dbg : Option String) (fuel : Nat) :
    ∀ a ∈ (streamBody orc sid dbg fuel).drop 1, isSessionStart a = false := by
  rw [streamBody]
  cases hsu : orc.startUrl with
  | error e => simp
  | ok ur =>
    obtain ⟨url, reasoning⟩ := ur
    cases hef : orc.execFirst with
    | error e =>
      intro a ha
      simp at ha
      subst ha
      rfl
    | ok u =>
      intro a ha
      simp only [List.drop_succ_cons, List.drop_zero] at ha
      rcases List.mem_cons.mp ha with heq | hmem
      · subst heq
        rfl
      · exact loop_sessionStart_false orc.run fuel 0 _ a hmem

/-- The internal-creation POST path emits session_start as its first
event and never again. -/
theorem internal_head_and_tail (orc : StreamOracle) (sid surl cid : String)
    (fuel : Nat) :
    (internalStreamEvents orc sid surl cid fuel).head? =
      some (Event.sessionStart sid surl cid) ∧
    ∀ a ∈ (internalStreamEvents orc sid surl cid fuel).drop 1,
      isSessionStart a = false := by
  constructor
  · rfl
  · rw [internalStreamEvents]
    cases hsu : orc.startUrl with
    | error e =>
      intro a ha
      simp at ha
      subst ha
      rfl
    | ok ur =>
      obtain ⟨url, reasoning⟩ := ur
      cases hef : orc.execFirst with
      | error e =>
        intro a ha
        simp at ha
        rcases ha with ha | ha <;> (subst ha; rfl)
      | ok u =>
        intro a ha
        simp only [List.drop_succ_cons, List.drop_zero] at ha
        rcases List.mem_cons.mp ha with heq | hmem
        · subst heq
          rfl
        · rcases List.mem_cons.mp hmem with heq2 | hmem2
          · subst heq2
            rfl
          · exact loop_sessionStart_false orc.run fuel 0 _ a hmem2

/-- After its first event, executeAgentWithStream emits no
session_start. -/
theorem exec_stream_tail_no_ss (orc : StreamOracle) (sid? : Option String)
    (fuel : Nat) :
    ∀ a ∈ (executeAgentWithStream orc sid? fuel).events.drop 1,
      isSessionStart a = false := by
  cases sid? with
  | some sid => exact streamBody_tail_no_ss orc sid none fuel
  | none =>
    cases hc : orc.createFetch with
    | error e =>
      simp only [executeAgentWithStream, createBrowserbaseSession, hc]
      simp
    | ok v =>
      obtain ⟨sid, dbg⟩ := v
      simp only [executeAgentWithStream, createBrowserbaseSession, hc]
      exact streamBody_tail_no_ss orc sid dbg fuel

/-- Any session_start in the executeAgentWithStream body carries the
active session id as both sessionId and contextId, and the debug URL
from creation or else the synthesized URL. -/
theorem streamBody_sessionStart_mem (orc : StreamOracle) (sid : String)
    (dbg : Option String) (fuel : Nat) (s u c : String)
    (h : Event.sessionStart s u c ∈ streamBody orc sid dbg fuel) :
    s = sid ∧ c = sid ∧ u = dbg.getD (synthSessionUrl sid) := by
  rw [streamBody] at h
  cases hsu : orc.startUrl with
  | error e =>
    rw [hsu] at h
    simp at h
  | ok ur =>
    rw [hsu] at h
    rcases List.mem_cons.mp h with heq | h
    · injection heq with e1 e2 e3
      exact ⟨e1, e3, e2⟩
    · cases hef : orc.execFirst with
      | error e =>
        rw [hef] at h
        simp at h
      | ok u2 =>
        rw [hef] at h
        rcases List.mem_cons.mp h with heq | h
        · exact absurd heq (by simp)
        · exact absurd h (loop_sessionStart_not_mem orc.run fuel 0 _ s u c)

/-- After its first event, a POST /api/agent stream emits no
session_start. -/
theorem agent_post_tail_no_ss (ek hk : Option String) (body : Option AgentBody)
    (orc : AgentPostOracle) (fuel : Nat) :
    ∀ a ∈ (agentPOST ek hk body orc fuel).events.drop 1,
      isSessionStart a = false := by
  cases hv : validateApiKey ek hk with
  | some st =>
    simp only [agentPOST, hv]
    simp
  | none =>
    cases body with
    | none =>
      simp only [agentPOST, hv]
      simp
    | some b =>
      cases hg : b.goal with
      | none =>
        simp only [agentPOST, hv, hg]
        simp
      | some g =>
        cases hs : b.sessionId with
        | some sid =>
          simp only [agentPOST, hv, hg, hs]
          exact exec_stream_tail_no_ss orc.stream (some sid) fuel
        | none =>
          cases hf : orc.sessionFetch with
          | error e =>
            simp only [agentPOST, hv, hg, hs, hf]
            simp
          | ok v =>
            obtain ⟨sid, surl, cid⟩ := v
            simp only [agentPOST, hv, hg, hs, hf]
            exact (internal_head_and_tail orc.stream sid surl cid fuel).2

/-- C1: on every streaming agent run (both the caller-supplied-session
path and the internal-creation POST path), a step_planned event's done
flag is true if and only if the planned step's tool is CLOSE; and a
step_planned event with done = true is followed by exactly one further
event, the complete event, whose steps field is the full step history
recorded by the trace so far and whose finalResult is that history's last
element (the CLOSE step).  In particular no step_planned or step_executed
event ever follows a done = true step_planned event. -/
theorem c1_done_iff_close_then_complete :
    (∀ (orc : StreamOracle) (sid? : Option String) (fuel : Nat),
      (∀ (s : Step) (d : Bool),
        Event.stepPlanned s d ∈ (executeAgentWithStream orc sid? fuel).events →
        (d = true ↔ s.tool = Tool.CLOSE)) ∧
      (∀ (pre : List Event) (s : Step) (post : List Event),
        (executeAgentWithStream orc sid? fuel).events =
          pre ++ Event.stepPlanned s true :: post →
        post = [Event.complete (historyOf pre ++ [s]) s])) ∧
    (∀ (ek hk : Option String) (body : Option AgentBody) (orc : AgentPostOracle)
      (fuel : Nat),
      (∀ (s : Step) (d : Bool),
        Event.stepPlanned s d ∈ (agentPOST ek hk body orc fuel).events →
        (d = true ↔ s.tool = Tool.CLOSE)) ∧
      (∀ (pre : List Event) (s : Step) (post : List Event),
        (agentPOST ek hk body orc fuel).events =
          pre ++ Event.stepPlanned s true :: post →
        post = [Event.complete (historyOf pre ++ [s]) s])) := by
  constructor
  · intro orc sid? fuel
    refine ⟨?_, ?_⟩
    · intro s d h
      rw [exec_stream_planned_done orc sid? fuel s d h]
      exact beq_iff_eq
    · intro pre s post h
      exact exec_stream_after_close orc sid? fuel pre s post h
  · intro ek hk body orc fuel
    refine ⟨?_, ?_⟩
    · intro s d h
      rw [agent_post_planned_done ek hk body orc fuel s d h]
      exact beq_iff_eq
    · intro pre s post h
      exact agent_post_after_close ek hk body orc fuel pre s post h

/-- C1 witness: on the concrete all-succeeding run whose first planned
step is CLOSE, the events after the done = true step_planned are exactly
the complete event carrying the recorded history and its last step. -/
theorem c1_witness :
    [Event.complete [mkFirstStep "https-example" "because", closeStep] closeStep] =
      [Event.complete
        (historyOf
          [Event.sessionStart "sess1" (synthSessionUrl "sess1") "sess1",
           Event.stepComplete (mkFirstStep "https-example" "because") false]
          ++ [closeStep])
        closeStep] :=
  (c1_done_iff_close_then_complete.1 okStream none 2).2
    [Event.sessionStart "sess1" (synthSessionUrl "sess1") "sess1",
     Event.stepComplete (mkFirstStep "https-example" "because") false]
    closeStep
    [Event.complete [mkFirstStep "https-example" "because", closeStep] closeStep]
    (by decide)

/-- C2: a run given a caller-supplied sessionId never requests that
session's release; a run that created its session internally requests
release of exactly that session exactly once, whatever else happens in
the run (the release list is independent of the run oracle, hence the
same on failing runs).  Shown for executeAgentWithStream and for both
paths of POST /api/agent. -/
theorem c2_release_exactly_once_iff_internal :
    (∀ (orc : StreamOracle) (fuel : Nat) (sid : String),
      (executeAgentWithStream orc (some sid) fuel).releases = []) ∧
    (∀ (orc : StreamOracle) (fuel : Nat) (sid : String) (dbg : Option String),
      orc.createFetch = .ok (sid, dbg) →
      (executeAgentWithStream orc none fuel).releases = [sid]) ∧
    (∀ (ek hk : Option String) (b : AgentBody) (g sid : String)
      (orc : AgentPostOracle) (fuel : Nat),
      validateApiKey ek hk = none → b.goal = some g → b.sessionId = some sid →
      (agentPOST ek hk (some b) orc fuel).releases = []) ∧
    (∀ (ek hk : Option String) (b : AgentBody) (g : String)
      (orc : AgentPostOracle) (fuel : Nat) (sid surl cid : String),
      validateApiKey ek hk = none → b.goal = some g → b.sessionId = none →
      orc.sessionFetch = .ok (sid, surl, cid) →
      (agentPOST ek hk (some b) orc fuel).releases = [sid]) := by
  refine ⟨?_, ?_, ?_, ?_⟩
  · intro orc fuel sid
    rfl
  · intro orc fuel sid dbg hc
    simp [executeAgentWithStream, createBrowserbaseSession, hc]
  · intro ek hk b g sid orc fuel hv hg hs
    simp [agentPOST, hv, hg, hs, executeAgentWithStream]
  · intro ek hk b g orc fuel sid surl cid hv hg hs hf
    simp [agentPOST, hv, hg, hs, hf]

/-- C2 witness: the internally-created session of the concrete
all-succeeding run is released exactly once. -/
theorem c2_witness :
    (executeAgentWithStream okStream none 2).releases = ["sess1"] :=
  c2_release_exactly_once_iff_internal.2.1 okStream 2 "sess1" none rfl

/-- C3 counterexample: a run through executeAgentWithStream with a
caller-supplied session whose starting-URL selection fails emits only an
error event and no session_start at all, refuting the claim that exactly
one session_start is emitted on every run and precedes any error
event. -/
theorem c3_counterexample :
    (executeAgentWithStream idleStream (some "sess") 3).events =
      [Event.error "no url"] ∧
    ∀ a ∈ (executeAgentWithStream idleStream (some "sess") 3).events,
      isSessionStart a = false := by
  refine ⟨rfl, ?_⟩
  intro a ha
  simp only [executeAgentWithStream, streamBody, idleStream] at ha
  simp at ha
  subst ha
  rfl

/-- C3 amended: at most one session_start is emitted per run, and only
ever as the first stream event (everything after the first event is never
a session_start, on both streaming paths); a run that fails before the
session_start point emits only an error event; on the internal-creation
POST path exactly one session_start is emitted, as the first event,
carrying the created session's data. -/
theorem c3_sessionStart_only_first :
    (∀ (orc : StreamOracle) (sid? : Option String) (fuel : Nat) (a : Event),
      a ∈ (executeAgentWithStream orc sid? fuel).events.drop 1 →
      isSessionStart a = false) ∧
    (∀ (ek hk : Option String) (body : Option AgentBody) (orc : AgentPostOracle)
      (fuel : Nat) (a : Event),
      a ∈ (agentPOST ek hk body orc fuel).events.drop 1 →
      isSessionStart a = false) ∧
    (∀ (ek hk : Option String) (b : AgentBody) (g : String)
      (orc : AgentPostOracle) (fuel : Nat) (sid surl cid : String),
      validateApiKey ek hk = none → b.goal = some g → b.sessionId = none →
      orc.sessionFetch = .ok (sid, surl, cid) →
      (agentPOST ek hk (some b) orc fuel).events.head? =
        some (Event.sessionStart sid surl cid)) := by
  refine ⟨?_, ?_, ?_⟩
  · intro orc sid? fuel
    exact exec_stream_tail_no_ss orc sid? fuel
  · intro ek hk body orc fuel
    exact agent_post_tail_no_ss ek hk body orc fuel
  · intro ek hk b g orc fuel sid surl cid hv hg hs hf
    simp only [agentPOST, hv, hg, hs, hf]
    exact (internal_head_and_tail orc.stream sid surl cid fuel).1

/-- C3 witness: the concrete all-succeeding internal-creation run emits
session_start as its first event. -/
theorem c3_witness :
    (agentPOST (some "k") (some "k") (some ⟨some "find the price", none⟩)
        okAgentOracle 2).events.head? =
      some (Event.sessionStart "sess1" "https-live" "ctx1") :=
  c3_sessionStart_only_first.2.2 (some "k") (some "k")
    ⟨some "find the price", none⟩ "find the price" okAgentOracle 2
    "sess1" "https-live" "ctx1" (by decide) rfl rfl rfl

/-- C9: every session_start event executeAgentWithStream emits carries a
contextId equal to the sessionId field itself (no persisted-context id is
obtained on this path), and on the caller-supplied-session path the event
carries the caller's session id and the sessionUrl synthesized from it
rather than one fetched from the provider. -/
theorem c9_contextId_is_sessionId :
    (∀ (orc : StreamOracle) (sid? : Option String) (fuel : Nat) (s u c : String),
      Event.sessionStart s u c ∈ (executeAgentWithStream orc sid? fuel).events →
      c = s) ∧
    (∀ (orc : StreamOracle) (sid : String) (fuel : Nat) (s u c : String),
      Event.sessionStart s u c ∈
        (executeAgentWithStream orc (some sid) fuel).events →
      s = sid ∧ c = sid ∧ u = synthSessionUrl sid) := by
  constructor
  · intro orc sid? fuel s u c h
    cases sid? with
    | some sid =>
      obtain ⟨h1, h2, h3⟩ := streamBody_sessionStart_mem orc sid none fuel s u c h
      rw [h1, h2]
    | none =>
      cases hc : orc.createFetch with
      | error e =>
        simp only [executeAgentWithStream, createBrowserbaseSession, hc] at h
        simp at h
      | ok v =>
        obtain ⟨sid, dbg⟩ := v
        simp only [executeAgentWithStream, createBrowserbaseSession, hc] at h
        obtain ⟨h1, h2, h3⟩ := streamBody_sessionStart_mem orc sid dbg fuel s u c h
        rw [h1, h2]
  · intro orc sid fuel s u c h
    exact streamBody_sessionStart_mem orc sid none fuel s u c h

/-- C9 witness: the session_start emitted for the caller-supplied
session id carries that id as sessionId and contextId and the
synthesized URL. -/
theorem c9_witness :
    "sess" = "sess" ∧ "sess" = "sess" ∧
      synthSessionUrl "sess" = synthSessionUrl "sess" :=
  c9_contextId_is_sessionId.2 okStream "sess" 1 "sess"
    (synthSessionUrl "sess") "sess" (by decide)

/-- C10: whenever POST /api/agent creates a session internally (the
request passes key validation, carries a goal and no sessionId), the
internal session-creation call is made with exactly the fixed timezone
America/Los_Angeles and no contextId, regardless of the caller. -/
theorem c10_internal_creation_fixed_timezone (ek hk : Option String)
    (b : AgentBody) (g : String) (orc : AgentPostOracle) (fuel : Nat)
    (hv : validateApiKey ek hk = none) (hg : b.goal = some g)
    (hs : b.sessionId = none) :
    (agentPOST ek hk (some b) orc fuel).sessionReq =
      some { timezone := some "America/Los_Angeles", contextId := none } := by
  cases hf : orc.sessionFetch with
  | error e => simp [agentPOST, hv, hg, hs, hf]
  | ok v =>
    obtain ⟨sid, surl, cid⟩ := v
    simp [agentPOST, hv, hg, hs, hf]

/-- C10 witness: the fixed-timezone session request on a concrete
internally-creating call. -/
theorem c10_witness :
    (agentPOST (some "k") (some "k") (some ⟨some "buy a book", none⟩)
        agentIdleOracle 1).sessionReq =
      some { timezone := some "America/Los_Angeles", contextId := none } :=
  c10_internal_creation_fixed_timezone (some "k") (some "k")
    ⟨some "buy a book", none⟩ "buy a book" agentIdleOracle 1 (by decide) rfl rfl

/-- C4 counterexample: POST /api/session with a server credential
configured and no x-api-key header still performs all provider calls and
answers 200, not 401 — the session route performs no credential check,
refuting the claim for the session endpoints. -/
theorem c4_counterexample :
    sessionPOST none (some "bbkey") (some "proj") (fun _ => none)
        providerOkOracle (some ⟨none, none⟩) =
      ([ProviderReq.createContext "proj",
        ProviderReq.createSession "proj" "ctx1" true true Region.usWest2,
        ProviderReq.getDebug "sess1"],
       ⟨200, true, some "sess1", some "https-debug-url", some "ctx1"⟩) := rfl

/-- C4 amended: only POST /api/agent enforces the caller credential: an
unset server-side API_KEY yields 500, and a missing or mismatched
x-api-key yields 401, each with no stream events, no internal
session-creation call and no release; POST /api/session and DELETE
/api/session ignore the x-api-key header entirely, behaving identically
whatever its value. -/
theorem c4_only_agent_route_checks_key :
    (∀ (hk : Option String) (body : Option AgentBody) (orc : AgentPostOracle)
      (fuel : Nat),
      agentPOST none hk body orc fuel =
        { status := 500, events := [], sessionReq := none, releases := [] }) ∧
    (∀ (ek : String) (body : Option AgentBody) (orc : AgentPostOracle)
      (fuel : Nat),
      agentPOST (some ek) none body orc fuel =
        { status := 401, events := [], sessionReq := none, releases := [] }) ∧
    (∀ (ek hk : String) (body : Option AgentBody) (orc : AgentPostOracle)
      (fuel : Nat), hk ≠ ek →
      agentPOST (some ek) (some hk) body orc fuel =
        { status := 401, events := [], sessionReq := none, releases := [] }) ∧
    (∀ (k1 k2 bbk bbp : Option String) (ofs : String → Option ℚ)
      (orc : ProviderOracle) (body : Option SessionPostBody),
      sessionPOST k1 bbk bbp ofs orc body = sessionPOST k2 bbk bbp ofs orc body) ∧
    (∀ (k1 k2 bbp : Option String) (po : Except String Unit)
      (body : Option String),
      sessionDELETE k1 bbp po body = sessionDELETE k2 bbp po body) := by
  refine ⟨?_, ?_, ?_, ?_, ?_⟩
  · intro hk body orc fuel
    rfl
  · intro ek body orc fuel
    rfl
  · intro ek hk body orc fuel hne
    have hb : (hk == ek) = false := by simpa using hne
    simp [agentPOST, validateApiKey, hb]
  · intro k1 k2 bbk bbp ofs orc body
    rfl
  · intro k1 k2 bbp po body
    rfl

/-- C4 witness: a mismatched key on POST /api/agent yields 401 with no
calls. -/
theorem c4_witness :
    agentPOST (some "secret") (some "wrong") none agentIdleOracle 0 =
      { status := 401, events := [], sessionReq := none, releases := [] } :=
  c4_only_agent_route_checks_key.2.2.1 "secret" "wrong" none agentIdleOracle 0
    (by decide)

end OpenOperator
